import Mathlib

/-
Verification of the Monte Carlo option-pricing core of `optionmc`
(src/optionmc/models.py), shallowly embedded over the real numbers.

Modelling conventions:
* Python floats are modelled as real numbers `ℝ`; IEEE overflow/NaN are not
  modelled.  Where numpy produces NaN (mean of an empty array) or ±inf
  (division by zero), the real-valued model totalizes: in Lean `x / 0 = 0`
  and the mean of the empty list is `0 / 0 = 0`.  Theorems that touch such
  points only use facts independent of the totalization (e.g. that a value
  is returned at all), and each such spot is commented.
* `np.random.normal(0, 1, [1, n])` produces `n` pseudo-random draws; the
  embedding makes the draw vector an explicit `List ℝ` parameter, with the
  length tie `rand.length = iterations` stated as a hypothesis of each
  theorem, exactly the shape the source guarantees.
* The Python methods contain no `raise` statement and no validation branch;
  numpy/scipy signal degenerate inputs with warnings and NaN/inf values,
  never exceptions.  Accordingly the embedded operations are total
  functions; `bs_analytical_price` is wrapped in `Except` to make the
  absence of an error path explicit in its type.
-/

open MeasureTheory Set

noncomputable section

namespace OptionMC

/-- Mirror of `OptionPricing.__init__` (models.py lines 13-20): the
constructor merely stores the six parameters; no validation, no clamping. -/
structure OptionPricing where
  S0 : ℝ
  E : ℝ
  T : ℝ
  rf : ℝ
  sigma : ℝ
  iterations : ℕ

/-- Mirror of `np.mean`: sum divided by length.  For an empty array numpy
returns NaN (with a runtime warning, not an exception); the real-valued
model totalizes this to `0 / 0 = 0`. -/
def listMean (xs : List ℝ) : ℝ := xs.sum / xs.length

/-- The GBM terminal price for a single normal draw `z`, the `stock_price`
expression of models.py lines 37-40:
`S0 * exp(T*(rf - 0.5*sigma^2) + sigma*sqrt(T)*z)`. -/
def terminalPrice (p : OptionPricing) (z : ℝ) : ℝ :=
  p.S0 * Real.exp (p.T * (p.rf - 0.5 * p.sigma ^ 2) + p.sigma * Real.sqrt p.T * z)

/-- Mirror of `OptionPricing.call_option_simulation` (models.py lines 22-50),
parameterized by the normal draws `rand`: terminal prices via GBM, payoffs
`max (S_T - E) 0`, then `exp(-rf*T) * mean(payoffs)`. -/
def call_option_simulation (p : OptionPricing) (rand : List ℝ) : ℝ :=
  let stock_price := rand.map (terminalPrice p)
  let payoffs := stock_price.map (fun s => max (s - p.E) 0)
  Real.exp (-p.rf * p.T) * listMean payoffs

/-- Mirror of `OptionPricing.put_option_simulation` (models.py lines 52-80):
identical to the call simulation with payoff `max (E - S_T) 0`. -/
def put_option_simulation (p : OptionPricing) (rand : List ℝ) : ℝ :=
  let stock_price := rand.map (terminalPrice p)
  let payoffs := stock_price.map (fun s => max (p.E - s) 0)
  Real.exp (-p.rf * p.T) * listMean payoffs

/-- The antithetic draw sequence of models.py lines 90-96 / 120-126:
`combined_rand = np.concatenate((rand, -rand), axis=1)`. -/
def combinedRand (rand : List ℝ) : List ℝ := rand ++ rand.map (fun z => -z)

/-- Mirror of `OptionPricing.antithetic_call_simulation` (models.py lines
82-110); `rand` stands for the `iterations // 2` draws of line 90. -/
def antithetic_call_simulation (p : OptionPricing) (rand : List ℝ) : ℝ :=
  let stock_price := (combinedRand rand).map (terminalPrice p)
  let payoffs := stock_price.map (fun s => max (s - p.E) 0)
  Real.exp (-p.rf * p.T) * listMean payoffs

/-- Mirror of `OptionPricing.antithetic_put_simulation` (models.py lines
112-140). -/
def antithetic_put_simulation (p : OptionPricing) (rand : List ℝ) : ℝ :=
  let stock_price := (combinedRand rand).map (terminalPrice p)
  let payoffs := stock_price.map (fun s => max (p.E - s) 0)
  Real.exp (-p.rf * p.T) * listMean payoffs

/-- Standard normal cumulative distribution function Φ, the model of
`scipy.stats.norm.cdf`: the integral of the standard Gaussian density up to
`x`. -/
def normCdf (x : ℝ) : ℝ := ∫ t in Iic x, ProbabilityTheory.gaussianPDFReal 0 1 t

/-- Inverse standard normal CDF, the model of `scipy.stats.norm.ppf`, as
the inverse function of `normCdf`. -/
def norm_ppf (q : ℝ) : ℝ := Function.invFun normCdf q

/-- The `d1` expression of `bs_analytical_price` (models.py line 149).
Real-number division totalizes `x / 0` to `0`; the Python produces ±inf/NaN
there (a value, not an exception) — no theorem below uses the value of
`bs_d1` at `sigma * sqrt T = 0`. -/
def bs_d1 (p : OptionPricing) : ℝ :=
  (Real.log (p.S0 / p.E) + (p.rf + 0.5 * p.sigma ^ 2) * p.T) /
    (p.sigma * Real.sqrt p.T)

/-- The `d2` expression of `bs_analytical_price` (models.py line 150). -/
def bs_d2 (p : OptionPricing) : ℝ := bs_d1 p - p.sigma * Real.sqrt p.T

/-- The call component of `bs_analytical_price` (models.py line 152). -/
def bs_call_price (p : OptionPricing) : ℝ :=
  p.S0 * normCdf (bs_d1 p) - p.E * Real.exp (-p.rf * p.T) * normCdf (bs_d2 p)

/-- The put component of `bs_analytical_price` (models.py line 153). -/
def bs_put_price (p : OptionPricing) : ℝ :=
  p.E * Real.exp (-p.rf * p.T) * normCdf (-bs_d2 p) - p.S0 * normCdf (-bs_d1 p)

/-- Mirror of `OptionPricing.bs_analytical_price` (models.py lines 142-155).
The Python body is straight-line arithmetic: it contains no branch, no
validation and no raise statement (numpy/scipy only emit warnings and
NaN/inf values on degenerate input), so the embedded control flow is
unconditionally `Except.ok`; the `Except` codomain makes the absence of an
error path explicit. -/
def bs_analytical_price (p : OptionPricing) : Except String (ℝ × ℝ) :=
  .ok (bs_call_price p, bs_put_price p)

/-- Mirror of `np.std(xs, ddof=1)`: the Bessel-corrected sample standard
deviation (divisor `length - 1`). -/
def sampleStd (xs : List ℝ) : ℝ :=
  Real.sqrt ((xs.map (fun x => (x - listMean xs) ^ 2)).sum /
    ((xs.length : ℝ) - 1))

/-- Mirror of `OptionPricing.confidence_intervals` (models.py lines
157-187): `n_samples = 30` sub-runs of size `iterations // 30` each, every
sub-run pricing a CALL via `call_option_simulation` on a fresh temporary
pricer; `draws` supplies the 30 sub-run draw vectors that
`np.random.normal` generates inside each sub-call.  Returns
`(price - z*std_err, price + z*std_err)`. -/
def confidence_intervals (p : OptionPricing) (price : ℝ) (confidence : ℝ)
    (draws : List (List ℝ)) : ℝ × ℝ :=
  let n_samples : ℕ := 30
  let subsample_size := p.iterations / n_samples
  let prices := draws.map (fun d =>
    call_option_simulation ⟨p.S0, p.E, p.T, p.rf, p.sigma, subsample_size⟩ d)
  let std_err := sampleStd prices / Real.sqrt n_samples
  let z := norm_ppf ((1 + confidence) / 2)
  (price - z * std_err, price + z * std_err)

/-- The confidence-interval algorithm exactly as the specification words it
(spec §4.6), written independently of `confidence_intervals`: partition the
budget into 30 sub-runs of size `N / 30` (integer division, remainder
dropped), compute the standard Monte Carlo CALL price of each sub-run
(regardless of what `price` estimates), take the Bessel-corrected sample
standard deviation (divisor 29) of the sub-estimates, divide by `√30`, set
`z` to the inverse normal CDF at `(1 + confidence) / 2`, and return
`price ∓ z * standard_error`. -/
def spec_confidence_interval (p : OptionPricing) (price : ℝ)
    (confidence : ℝ) (draws : List (List ℝ)) : ℝ × ℝ :=
  let subEstimates := draws.map (fun d =>
    call_option_simulation ⟨p.S0, p.E, p.T, p.rf, p.sigma, p.iterations / 30⟩ d)
  let mean := subEstimates.sum / 30
  let sdev := Real.sqrt ((subEstimates.map (fun x => (x - mean) ^ 2)).sum / 29)
  let standard_error := sdev / Real.sqrt 30
  let z := norm_ppf ((1 + confidence) / 2)
  (price - z * standard_error, price + z * standard_error)

/-- Claim C1: for every parameter set and every vector of `iterations`
draws, the standard call and put simulations return `exp(-rf*T)` times the
arithmetic mean of the payoffs, each terminal price being
`S0*exp(T*(rf - 0.5*sigma^2) + sigma*sqrt(T)*z_i)`, with call payoff
`max (S_T - E) 0` and put payoff `max (E - S_T) 0`, the discount factor
applied once to the mean. -/
theorem standard_pricing_formula (p : OptionPricing) (rand : List ℝ)
    (h : rand.length = p.iterations) :
    call_option_simulation p rand =
      Real.exp (-p.rf * p.T) *
        ((rand.map (fun z =>
            max (p.S0 * Real.exp (p.T * (p.rf - 0.5 * p.sigma ^ 2)
              + p.sigma * Real.sqrt p.T * z) - p.E) 0)).sum / p.iterations) ∧
    put_option_simulation p rand =
      Real.exp (-p.rf * p.T) *
        ((rand.map (fun z =>
            max (p.E - p.S0 * Real.exp (p.T * (p.rf - 0.5 * p.sigma ^ 2)
              + p.sigma * Real.sqrt p.T * z)) 0)).sum / p.iterations) := by
  constructor <;>
    simp [call_option_simulation, put_option_simulation, listMean,
      List.map_map, Function.comp_def, terminalPrice, h]

/-- Witness for C1 at a concrete parameter set and draw vector. -/
theorem standard_pricing_formula_witness :
    call_option_simulation ⟨100, 100, 1, 5/100, 2/10, 1⟩ ([0]) =
      Real.exp (-(5/100 : ℝ) * 1) *
        (([(0 : ℝ)].map (fun z =>
            max ((100 : ℝ) * Real.exp ((1 : ℝ) * (5/100 - 0.5 * (2/10) ^ 2)
              + 2/10 * Real.sqrt 1 * z) - 100) 0)).sum / (1 : ℕ)) ∧
    put_option_simulation ⟨100, 100, 1, 5/100, 2/10, 1⟩ ([0]) =
      Real.exp (-(5/100 : ℝ) * 1) *
        (([(0 : ℝ)].map (fun z =>
            max ((100 : ℝ) - 100 * Real.exp ((1 : ℝ) * (5/100 - 0.5 * (2/10) ^ 2)
              + 2/10 * Real.sqrt 1 * z)) 0)).sum / (1 : ℕ)) :=
  standard_pricing_formula ⟨100, 100, 1, 5/100, 2/10, 1⟩ ([0]) rfl

lemma sum_map_neg (l : List ℝ) : (l.map (fun z => -z)).sum = -l.sum := by
  induction l with
  | nil => simp
  | cons a t ih => simp [ih]; ring

/-- Claim C5: the antithetic draw sequence built from the `N / 2` half-draws
`rand` has exactly `2 * (N / 2)` entries; its second half is the negation of
its first half (so it consists of `N / 2` pairs `(z, -z)`), its total sum is
exactly zero, and for odd `N` the floored count `2 * (N / 2)` is `N - 1`,
one fewer sample than requested. -/
theorem antithetic_pairing (N : ℕ) (rand : List ℝ) (h : rand.length = N / 2) :
    (combinedRand rand).length = 2 * (N / 2) ∧
    (combinedRand rand).drop (N / 2) =
      ((combinedRand rand).take (N / 2)).map (fun z => -z) ∧
    (combinedRand rand).sum = 0 ∧
    (N % 2 = 1 → 2 * (N / 2) = N - 1) := by
  refine ⟨?_, ?_, ?_, ?_⟩
  · simp [combinedRand, h]; omega
  · rw [combinedRand, ← h, List.drop_left, List.take_left]
  · simp [combinedRand, sum_map_neg]
  · omega

/-- Witness for C5 with `N = 5` (odd) and half-draws `[1, -2]`. -/
theorem antithetic_pairing_witness :
    (combinedRand ([1, -2])).length = 2 * (5 / 2) ∧
    (combinedRand ([1, -2])).drop (5 / 2) =
      ((combinedRand ([1, -2])).take (5 / 2)).map (fun z => -z) ∧
    (combinedRand ([1, -2])).sum = 0 ∧
    (5 % 2 = 1 → 2 * (5 / 2) = 5 - 1) :=
  antithetic_pairing 5 ([1, -2]) rfl

/-- Claim C8: every Monte Carlo pricing operation returns a non-negative
price: each payoff is `max _ 0 ≥ 0`, so the discounted mean is `≥ 0`.
(Finiteness is inherent in the real-valued model: every result is a real
number; IEEE overflow is outside the model, and the spec's §7 separately
lets infinities propagate.)  Stated for all parameter sets and all draw
vectors, which subsumes the valid ones. -/
theorem prices_nonneg (p : OptionPricing) (rand randHalf : List ℝ) :
    0 ≤ call_option_simulation p rand ∧
    0 ≤ put_option_simulation p rand ∧
    0 ≤ antithetic_call_simulation p randHalf ∧
    0 ≤ antithetic_put_simulation p randHalf := by
  have key : ∀ (l : List ℝ) (f : ℝ → ℝ),
      0 ≤ Real.exp (-p.rf * p.T) * listMean (l.map (fun s => max (f s) 0)) := by
    intro l f
    apply mul_nonneg (Real.exp_nonneg _)
    apply div_nonneg _ (Nat.cast_nonneg _)
    apply List.sum_nonneg
    intro x hx
    obtain ⟨s, _, rfl⟩ := List.mem_map.1 hx
    exact le_max_right _ _
  refine ⟨?_, ?_, ?_, ?_⟩
  · simpa [call_option_simulation, List.map_map, Function.comp_def] using
      key (rand.map (terminalPrice p)) (fun s => s - p.E)
  · simpa [put_option_simulation, List.map_map, Function.comp_def] using
      key (rand.map (terminalPrice p)) (fun s => p.E - s)
  · simpa [antithetic_call_simulation, List.map_map, Function.comp_def] using
      key ((combinedRand randHalf).map (terminalPrice p)) (fun s => s - p.E)
  · simpa [antithetic_put_simulation, List.map_map, Function.comp_def] using
      key ((combinedRand randHalf).map (terminalPrice p)) (fun s => p.E - s)

/-- Claim C9: with `sigma = 0` (or `T = 0`) the terminal-price computation
is total and yields the deterministic value `S0 * exp(T * rf)` for every
draw; in particular every two draws give the same terminal price (zero
variance across draws). -/
theorem degenerate_terminal_price (p : OptionPricing)
    (h : p.sigma = 0 ∨ p.T = 0) (z w : ℝ) :
    terminalPrice p z = p.S0 * Real.exp (p.T * p.rf) ∧
    terminalPrice p z = terminalPrice p w := by
  have hz : ∀ y : ℝ, terminalPrice p y = p.S0 * Real.exp (p.T * p.rf) := by
    intro y
    rcases h with h | h <;>
      simp [terminalPrice, h, Real.sqrt_zero, mul_sub]
  exact ⟨hz z, (hz z).trans (hz w).symm⟩

/-- Witness for C9 with `sigma = 0` at draws `1` and `-3`. -/
theorem degenerate_terminal_price_witness :
    terminalPrice ⟨100, 100, 1, 5/100, 0, 10⟩ 1 =
      100 * Real.exp (1 * (5/100)) ∧
    terminalPrice ⟨100, 100, 1, 5/100, 0, 10⟩ 1 =
      terminalPrice ⟨100, 100, 1, 5/100, 0, 10⟩ (-3) :=
  degenerate_terminal_price ⟨100, 100, 1, 5/100, 0, 10⟩ (Or.inl rfl) 1 (-3)

/-- Claim C10: for even `N ≥ 2` and half-draws `rand` of length `N / 2`, the
antithetic call (resp. put) estimate is exactly the arithmetic mean of the
standard estimate on draws `rand` and the standard estimate on draws
`-rand` — the deterministic identity underlying the unbiasedness of the
antithetic estimator. -/
theorem antithetic_mean_of_standard (p : OptionPricing) (N : ℕ)
    (rand : List ℝ) (hN2 : 2 ≤ N) (heven : N % 2 = 0)
    (hlen : rand.length = N / 2) :
    antithetic_call_simulation p rand =
      (call_option_simulation p rand
        + call_option_simulation p (rand.map (fun z => -z))) / 2 ∧
    antithetic_put_simulation p rand =
      (put_option_simulation p rand
        + put_option_simulation p (rand.map (fun z => -z))) / 2 := by
  have hkpos : (0 : ℝ) < rand.length := by
    have : 1 ≤ N / 2 := by omega
    have : 1 ≤ rand.length := by omega
    exact_mod_cast this
  have key : ∀ g : ℝ → ℝ,
      Real.exp (-p.rf * p.T) *
          listMean (((combinedRand rand).map (terminalPrice p)).map g) =
        (Real.exp (-p.rf * p.T) * listMean ((rand.map (terminalPrice p)).map g)
          + Real.exp (-p.rf * p.T) *
            listMean (((rand.map (fun z => -z)).map (terminalPrice p)).map g)) / 2 := by
    intro g
    simp only [combinedRand, List.map_append, List.sum_append, listMean,
      List.length_append, List.length_map]
    rw [Nat.cast_add]
    field_simp
    ring
  exact ⟨key (fun s => max (s - p.E) 0), key (fun s => max (p.E - s) 0)⟩

/-- Witness for C10 with `N = 2` and half-draws `[1]`. -/
theorem antithetic_mean_of_standard_witness :
    antithetic_call_simulation ⟨100, 100, 1, 5/100, 2/10, 2⟩ ([1]) =
      (call_option_simulation ⟨100, 100, 1, 5/100, 2/10, 2⟩ ([1])
        + call_option_simulation ⟨100, 100, 1, 5/100, 2/10, 2⟩
            (([1] : List ℝ).map (fun z => -z))) / 2 ∧
    antithetic_put_simulation ⟨100, 100, 1, 5/100, 2/10, 2⟩ ([1]) =
      (put_option_simulation ⟨100, 100, 1, 5/100, 2/10, 2⟩ ([1])
        + put_option_simulation ⟨100, 100, 1, 5/100, 2/10, 2⟩
            (([1] : List ℝ).map (fun z => -z))) / 2 :=
  antithetic_mean_of_standard ⟨100, 100, 1, 5/100, 2/10, 2⟩ 2 ([1])
    (le_refl 2) rfl rfl

lemma gaussianPDFReal_std_neg (t : ℝ) :
    ProbabilityTheory.gaussianPDFReal 0 1 (-t) =
      ProbabilityTheory.gaussianPDFReal 0 1 t := by
  simp [ProbabilityTheory.gaussianPDFReal]

lemma normCdf_add_normCdf_neg (x : ℝ) : normCdf x + normCdf (-x) = 1 := by
  have hint : Integrable (ProbabilityTheory.gaussianPDFReal 0 1) :=
    ProbabilityTheory.integrable_gaussianPDFReal 0 1
  have h2 : normCdf (-x) =
      ∫ t in Ioi x, ProbabilityTheory.gaussianPDFReal 0 1 t := by
    rw [normCdf, ← integral_comp_neg_Ioi x (ProbabilityTheory.gaussianPDFReal 0 1)]
    exact setIntegral_congr_fun measurableSet_Ioi
      (fun t _ => gaussianPDFReal_std_neg t)
  rw [normCdf, h2,
    intervalIntegral.integral_Iic_add_Ioi hint.integrableOn hint.integrableOn,
    ProbabilityTheory.integral_gaussianPDFReal_eq_one 0 one_ne_zero]

/-- Claim C7: for every valid parameter set with `sigma * sqrt T ≠ 0`, the
analytical pricer's two outputs satisfy put-call parity exactly:
`call - put = S0 - E * exp(-rf * T)`. -/
theorem put_call_parity (p : OptionPricing) (hS0 : 0 < p.S0) (hE : 0 < p.E)
    (hT : 0 < p.T) (hdeg : p.sigma * Real.sqrt p.T ≠ 0) :
    bs_call_price p - bs_put_price p = p.S0 - p.E * Real.exp (-p.rf * p.T) := by
  have h1 := normCdf_add_normCdf_neg (bs_d1 p)
  have h2 := normCdf_add_normCdf_neg (bs_d2 p)
  unfold bs_call_price bs_put_price
  linear_combination p.S0 * h1 - p.E * Real.exp (-p.rf * p.T) * h2

/-- Witness for C7 at S0 = E = 1, T = 1, rf = 0, sigma = 1. -/
theorem put_call_parity_witness :
    (0 : ℝ) < 1 ∧ (1 : ℝ) * Real.sqrt 1 ≠ 0 ∧
    bs_call_price ⟨1, 1, 1, 0, 1, 1⟩ - bs_put_price ⟨1, 1, 1, 0, 1, 1⟩ =
      1 - 1 * Real.exp (-(0 : ℝ) * 1) :=
  ⟨one_pos, by simp,
    put_call_parity ⟨1, 1, 1, 0, 1, 1⟩ one_pos one_pos one_pos (by simp)⟩

/-- Claim C6: `confidence_intervals` implements exactly the algorithm of
spec §4.6 (stated independently as `spec_confidence_interval`): 30 call-
price sub-runs of size `iterations / 30`, Bessel-corrected standard
deviation with divisor 29, standard error via `√30`, z from the inverse
normal CDF at `(1 + confidence) / 2`, bounds `price ∓ z * std_err` —
always from CALL sub-estimates, whatever `price` estimates. -/
theorem confidence_intervals_spec (p : OptionPricing) (price confidence : ℝ)
    (draws : List (List ℝ)) (hd : draws.length = 30) :
    confidence_intervals p price confidence draws =
      spec_confidence_interval p price confidence draws := by
  simp only [confidence_intervals, spec_confidence_interval, sampleStd,
    listMean, List.length_map, hd]
  norm_num

/-- Witness for C6 at a concrete parameter set with 30 sub-run draw lists. -/
theorem confidence_intervals_spec_witness :
    confidence_intervals ⟨100, 100, 1, 5/100, 2/10, 60⟩ 7 (95/100)
        (List.replicate 30 ([1, -1])) =
      spec_confidence_interval ⟨100, 100, 1, 5/100, 2/10, 60⟩ 7 (95/100)
        (List.replicate 30 ([1, -1])) :=
  confidence_intervals_spec ⟨100, 100, 1, 5/100, 2/10, 60⟩ 7 (95/100)
    (List.replicate 30 ([1, -1])) (by simp)

/-- Counterexample to claim C2: `S0 = -1` is an invalid parameter
(non-positive initial price), yet the standard call simulation runs and
returns the numeric result `0` — no validation error precedes simulation
(the embedded operation, like the Python method, is a total function with
no raise path; numpy computes through negative prices without complaint). -/
theorem invalid_params_numeric_result :
    call_option_simulation ⟨-1, 1, 1, 0, 1, 1⟩ ([0]) = 0 := by
  have hexp := Real.exp_pos ((1 : ℝ) * (0 - 0.5 * 1 ^ 2) + 1 * Real.sqrt 1 * 0)
  simp only [call_option_simulation, terminalPrice, listMean, List.map_cons,
    List.map_nil, List.sum_cons, List.sum_nil, List.length_cons,
    List.length_nil]
  rw [max_eq_right (by nlinarith)]
  norm_num

/-- Amended claim C2: `OptionPricing.__init__` performs no validation at
all — parameters are stored as given, nothing is clamped, and every pricing
operation is total, silently returning a numeric result on invalid input;
in particular, for non-positive `S0` and positive strike every call payoff
is clamped to 0 by the `max`, and the call simulation silently returns the
degenerate price `0` instead of failing. -/
theorem no_validation_silent_zero (p : OptionPricing) (hS0 : p.S0 ≤ 0)
    (hE : 0 < p.E) (rand : List ℝ) :
    call_option_simulation p rand = 0 := by
  have hsum : ((rand.map (terminalPrice p)).map
      (fun s => max (s - p.E) 0)).sum = 0 := by
    apply List.sum_eq_zero
    intro x hx
    obtain ⟨s, hs, rfl⟩ := List.mem_map.1 hx
    obtain ⟨z, _, rfl⟩ := List.mem_map.1 hs
    have hterm : terminalPrice p z ≤ 0 := by
      simp only [terminalPrice]
      have := Real.exp_pos (p.T * (p.rf - 0.5 * p.sigma ^ 2)
        + p.sigma * Real.sqrt p.T * z)
      nlinarith
    exact max_eq_right (by nlinarith)
  simp only [call_option_simulation, listMean]
  rw [hsum]
  simp

/-- Witness for the amended C2 at `S0 = 0`, `E = 2`, draws `[1, -1, 0]`. -/
theorem no_validation_silent_zero_witness :
    (0 : ℝ) ≤ 0 ∧ (0 : ℝ) < 2 ∧
    call_option_simulation ⟨0, 2, 1, 1, 1, 3⟩ ([1, -1, 0]) = 0 :=
  ⟨le_refl 0, by norm_num,
    no_validation_silent_zero ⟨0, 2, 1, 1, 1, 3⟩ (le_refl 0) (by norm_num) _⟩

/-- Counterexample to claim C3: at `sigma = 0` (so `sigma * sqrt T = 0`),
`bs_analytical_price` does not fail with a domain error — it returns
`Except.ok` of a pair.  (In the Python, d1/d2 become NaN or ±inf and
propagate into the returned tuple; no exception is raised.) -/
theorem bs_degenerate_no_error :
    (bs_analytical_price ⟨100, 100, 1, 5/100, 0, 1000⟩).isOk = true := rfl

/-- Amended claim C3: the analytical pricer performs no domain check and
never signals an error: for every parameter set — including
`sigma * sqrt T = 0` — it returns `Except.ok` of the pair given by the
Black-Scholes formulas `(S0·Φ(d1) - E·exp(-rf·T)·Φ(d2),
E·exp(-rf·T)·Φ(-d2) - S0·Φ(-d1))` with
`d1 = (ln(S0/E) + (rf + 0.5·sigma²)·T)/(sigma·√T)` and
`d2 = d1 - sigma·√T`; at the degenerate point the Python propagates NaN/inf
values inside the pair rather than raising (division is totalized in the
real-valued model). -/
theorem bs_total_formula (p : OptionPricing) :
    bs_analytical_price p =
      Except.ok
        (p.S0 * normCdf ((Real.log (p.S0 / p.E)
              + (p.rf + 0.5 * p.sigma ^ 2) * p.T) / (p.sigma * Real.sqrt p.T))
            - p.E * Real.exp (-p.rf * p.T) *
              normCdf ((Real.log (p.S0 / p.E)
                  + (p.rf + 0.5 * p.sigma ^ 2) * p.T) / (p.sigma * Real.sqrt p.T)
                - p.sigma * Real.sqrt p.T),
         p.E * Real.exp (-p.rf * p.T) *
              normCdf (-((Real.log (p.S0 / p.E)
                  + (p.rf + 0.5 * p.sigma ^ 2) * p.T) / (p.sigma * Real.sqrt p.T)
                - p.sigma * Real.sqrt p.T))
            - p.S0 * normCdf (-((Real.log (p.S0 / p.E)
                + (p.rf + 0.5 * p.sigma ^ 2) * p.T) / (p.sigma * Real.sqrt p.T)))) :=
  rfl

/-- Counterexample to claim C4: with `iterations = 1 < 2` the antithetic
call simulation does not raise a validation error — `1 // 2 = 0` half-draws
are used and a value is returned (numpy yields NaN, the mean of an empty
slice, with only a runtime warning; the real-valued model totalizes the
empty mean to 0).  A quietly-degraded zero-sample result is exactly what
the claim says must not happen. -/
theorem antithetic_small_N_numeric_result :
    antithetic_call_simulation ⟨100, 100, 1, 5/100, 2/10, 1⟩ ([]) = 0 := by
  simp [antithetic_call_simulation, combinedRand, listMean]

/-- Amended claim C4: neither path validates its sample size.  With
`N < 2` the antithetic methods use `N // 2 = 0` draws and silently return
the degenerate mean-of-empty value (NaN in numpy, totalized to 0 in the
model); with `N < 30` `confidence_intervals` uses `subsample_size =
N // 30 = 0`, every sub-estimate is that same degenerate value, and a
numeric pair (collapsing to `(price, price)` in the model) is still
returned.  No explicit validation error exists in either code path. -/
theorem insufficient_samples_no_error (p : OptionPricing)
    (h2 : p.iterations < 2) (h30 : p.iterations < 30)
    (price confidence : ℝ) :
    p.iterations / 2 = 0 ∧
    antithetic_call_simulation p ([]) = 0 ∧
    antithetic_put_simulation p ([]) = 0 ∧
    p.iterations / 30 = 0 ∧
    confidence_intervals p price confidence (List.replicate 30 ([])) =
      (price, price) := by
  refine ⟨by omega, ?_, ?_, by omega, ?_⟩
  · simp [antithetic_call_simulation, combinedRand, listMean]
  · simp [antithetic_put_simulation, combinedRand, listMean]
  · simp [confidence_intervals, sampleStd, listMean, call_option_simulation,
      List.map_replicate]

/-- Witness for the amended C4 at `iterations = 1`. -/
theorem insufficient_samples_no_error_witness :
    (1 : ℕ) < 2 ∧ (1 : ℕ) < 30 ∧
    ((1 : ℕ) / 2 = 0 ∧
      antithetic_call_simulation ⟨100, 100, 1, 0, 2/10, 1⟩ ([]) = 0 ∧
      antithetic_put_simulation ⟨100, 100, 1, 0, 2/10, 1⟩ ([]) = 0 ∧
      (1 : ℕ) / 30 = 0 ∧
      confidence_intervals ⟨100, 100, 1, 0, 2/10, 1⟩ 7 (95/100)
          (List.replicate 30 ([])) = (7, 7)) :=
  ⟨by norm_num, by norm_num,
    insufficient_samples_no_error ⟨100, 100, 1, 0, 2/10, 1⟩
      (by norm_num) (by norm_num) 7 (95/100)⟩

end OptionMC
